import Mathlib

/-!
Verification development for the Ai-Calendar chatbot core
(`src/server/services/chatbot/calendar_chatbot_gpt.py` and
`src/server/services/calendar_handler.py`).

Modelling conventions, used throughout:

* Instants are integers counting seconds (UTC) since an arbitrary epoch;
  the Python code works with second-precision RFC3339 strings
  (`strftime("%Y-%m-%dT%H:%M:%S.000Z")` truncates sub-second digits and
  always renders `.000` milliseconds), so integer seconds capture exactly
  the precision that is observable downstream.
* The configured local timezone is a fixed offset `tz` in seconds east of
  UTC (`local wall time = utc + tz`), matching the fixed
  `self.local_timezone` captured at construction time.
* RFC3339 strings that the code produces internally and immediately
  re-parses (the bulk-delete day bounds, the clamped `current_time` in
  `handle_show_events`) are modelled as the instants they denote; the
  string round trip through `_parse_datetime` is the identity on them at
  second precision.
* Python string primitives (`lower`, `in`, `split`, `strip`, `replace`,
  `int`) are modelled character-exactly below on `List Char`.
-/

/-- Python `pattern in s` (substring containment) on character lists. -/
def isSubArr (pat : List Char) : List Char → Bool
  | [] => pat.isEmpty
  | c :: rest => pat.isPrefixOf (c :: rest) || isSubArr pat rest

/-- Python `s.strip()`: drop whitespace from both ends. -/
def pyStrip (cs : List Char) : List Char :=
  ((cs.dropWhile Char.isWhitespace).reverse.dropWhile Char.isWhitespace).reverse

/-- Fuelled worker for Python `s.replace(pat, rep)` (all occurrences,
left to right, non-overlapping).  The fuel is always instantiated with
`length + 1`, which is sufficient because every step consumes at least
one character. -/
def pyReplaceAux (pat rep : List Char) : Nat → List Char → List Char
  | 0, s => s
  | _ + 1, [] => []
  | fuel + 1, c :: rest =>
    if pat.isPrefixOf (c :: rest) && !pat.isEmpty then
      rep ++ pyReplaceAux pat rep fuel (rest.drop (pat.length - 1))
    else
      c :: pyReplaceAux pat rep fuel rest

/-- Python `s.replace(pat, rep)` on character lists. -/
def pyReplace (pat rep s : List Char) : List Char :=
  pyReplaceAux pat rep (s.length + 1) s

/-- Python `s.replace(pat, rep)` on `String`. -/
def pyReplaceStr (pat rep s : String) : String :=
  ⟨pyReplace pat.data rep.data s.data⟩

/-- Rest of the list after the first occurrence of `sep` (fuelled scan). -/
def dropThroughFirst (sep : List Char) : Nat → List Char → Option (List Char)
  | 0, _ => none
  | _ + 1, [] => none
  | fuel + 1, c :: rest =>
    if sep.isPrefixOf (c :: rest) then some ((c :: rest).drop sep.length)
    else dropThroughFirst sep fuel rest

/-- Prefix of the list up to (excluding) the next occurrence of `sep`. -/
def takeUntilSep (sep : List Char) : Nat → List Char → List Char
  | 0, s => s
  | _ + 1, [] => []
  | fuel + 1, c :: rest =>
    if sep.isPrefixOf (c :: rest) then []
    else c :: takeUntilSep sep fuel rest

/-- Python `s.split(sep)[1]`: the segment between the first and second
occurrence of `sep` (to the end of the string if `sep` occurs once).
Only used under a guard that `sep` occurs in `s`. -/
def pySplit1 (sep s : List Char) : List Char :=
  match dropThroughFirst sep (s.length + 1) s with
  | some rest => takeUntilSep sep (rest.length + 1) rest
  | none => []

/-- Numeric value of a decimal digit character. -/
def digitVal (c : Char) : Int := (c.toNat : Int) - 48

/-- Value of a non-empty all-digit character list. -/
def digitsVal (cs : List Char) : Int :=
  cs.foldl (fun a c => a * 10 + digitVal c) 0

/-- Python `int(s)`: strip whitespace, optional sign, then a non-empty
run of decimal digits; anything else raises (`none`). -/
def pyInt (cs : List Char) : Option Int :=
  match pyStrip cs with
  | '-' :: rest =>
    if !rest.isEmpty && rest.all Char.isDigit then some (-(digitsVal rest)) else none
  | '+' :: rest =>
    if !rest.isEmpty && rest.all Char.isDigit then some (digitsVal rest) else none
  | stripped =>
    if !stripped.isEmpty && stripped.all Char.isDigit then some (digitsVal stripped) else none

/-- Python `s.lower()` restricted to the ASCII range used by the code. -/
def pyLowerData (s : String) : List Char := s.data.map Char.toLower

/-! ## Wall-clock arithmetic (second precision, fixed-offset timezone)

For a positive divisor, `Int.ediv`/`Int.emod` coincide with Python's
floor division and modulo, so the field accessors of a `datetime` value
flattened to seconds are exactly the expressions below. -/

/-- Proleptic-Gregorian day index (days since the epoch) of a wall time. -/
def localDay (loc : Int) : Int := loc / 86400

/-- `datetime.hour` of a wall time in seconds. -/
def hourOf (loc : Int) : Int := (loc % 86400) / 3600

/-- `datetime.minute` of a wall time in seconds. -/
def minuteOf (loc : Int) : Int := (loc % 3600) / 60

/-- `datetime.second` of a wall time in seconds. -/
def secOf (loc : Int) : Int := loc % 60

/-- Rebuild a wall time from day index, hour, minute and second. -/
def mkLocal (day h m s : Int) : Int := day * 86400 + h * 3600 + m * 60 + s

/-- Python `dt.replace(hour=h, minute=m)`: keeps the date and the
seconds, validates the field ranges (`ValueError` on violation). -/
def py_replace_hm (loc h m : Int) : Except Unit Int :=
  if 0 ≤ h ∧ h ≤ 23 ∧ 0 ≤ m ∧ m ≤ 59 then
    .ok (mkLocal (localDay loc) h m (secOf loc))
  else .error ()

/-! ## Civil-date conversion (Gregorian calendar, as CPython validates and
renders dates).  Standard era-based algorithms; all divisors positive. -/

/-- Days since the epoch of a civil date `(y, m, d)`. -/
def daysFromCivil (y m d : Int) : Int :=
  let yA := if m ≤ 2 then y - 1 else y
  let era := yA / 400
  let yoe := yA - era * 400
  let mp := if 2 < m then m - 3 else m + 9
  let doy := (153 * mp + 2) / 5 + d - 1
  let doe := yoe * 365 + yoe / 4 - yoe / 100 + doy
  era * 146097 + doe - 719468

/-- Civil date `(y, m, d)` of a day index since the epoch. -/
def civilFromDays (z : Int) : Int × Int × Int :=
  let z' := z + 719468
  let era := z' / 146097
  let doe := z' - era * 146097
  let yoe := (doe - doe / 1460 + doe / 36524 - doe / 146096) / 365
  let y := yoe + era * 400
  let doy := doe - (365 * yoe + yoe / 4 - yoe / 100)
  let mp := (5 * doy + 2) / 153
  let dd := doy - (153 * mp + 2) / 5 + 1
  let mm := if mp < 10 then mp + 3 else mp - 9
  (if mm ≤ 2 then y + 1 else y, mm, dd)

/-- Gregorian leap-year test. -/
def isLeap (y : Int) : Bool :=
  y % 4 = 0 && (y % 100 ≠ 0 || y % 400 = 0)

/-- Number of days in a month. -/
def daysInMonth (y m : Int) : Int :=
  if m = 2 then (if isLeap y then 29 else 28)
  else if m = 4 ∨ m = 6 ∨ m = 9 ∨ m = 11 then 30
  else 31

/-- English month name (`strftime("%B")`). -/
def monthName (m : Int) : String :=
  if m = 1 then "January" else if m = 2 then "February"
  else if m = 3 then "March" else if m = 4 then "April"
  else if m = 5 then "May" else if m = 6 then "June"
  else if m = 7 then "July" else if m = 8 then "August"
  else if m = 9 then "September" else if m = 10 then "October"
  else if m = 11 then "November" else "December"

/-- Zero-padded two-digit rendering of a field value. -/
def pad2 (n : Int) : String :=
  if n < 10 then "0" ++ toString n else toString n

/-- `strftime("%B %d, %Y at %I:%M %p")` of a wall time: the display
format of `CalendarGPTBot._format_event_time`. -/
def renderDisplay (loc : Int) : String :=
  let dt := civilFromDays (localDay loc)
  let secs := loc % 86400
  let hh := secs / 3600
  let mm := (secs % 3600) / 60
  let h12 := if hh % 12 = 0 then 12 else hh % 12
  let ampm := if hh < 12 then "AM" else "PM"
  monthName dt.2.1 ++ " " ++ pad2 dt.2.2 ++ ", " ++ toString dt.1 ++
    " at " ++ pad2 h12 ++ ":" ++ pad2 mm ++ " " ++ ampm

/-- `strftime("%Y-%m-%d")` of a day index. -/
def renderDate (day : Int) : String :=
  let dt := civilFromDays day
  toString dt.1 ++ "-" ++ pad2 dt.2.1 ++ "-" ++ pad2 dt.2.2

/-! ## `datetime.fromisoformat` and `strptime` date reading (CPython 3.10 semantics: strict
`YYYY-MM-DD[*HH[:MM[:SS[.fff[fff]]]]][+HH:MM]` with field validation;
a bare trailing `Z` is NOT accepted — the code's own fallback replaces
`Z` by `+00:00` before retrying, exactly because of this). -/

/-- Read two decimal digits. -/
def read2 : List Char → Option (Int × List Char)
  | a :: b :: rest =>
    if a.isDigit && b.isDigit then some (digitVal a * 10 + digitVal b, rest) else none
  | _ => none

/-- Read four decimal digits. -/
def read4 : List Char → Option (Int × List Char)
  | a :: b :: c :: e :: rest =>
    if a.isDigit && b.isDigit && c.isDigit && e.isDigit then
      some (digitVal a * 1000 + digitVal b * 100 + digitVal c * 10 + digitVal e, rest)
    else none
  | _ => none

/-- Read a `±HH:MM` UTC-offset tail, returning the offset in seconds. -/
def readOffset : List Char → Option Int
  | cs =>
    match read2 cs with
    | some (oh, ':' :: r1) =>
      match read2 r1 with
      | some (om, []) => if oh ≤ 23 ∧ om ≤ 59 then some (oh * 3600 + om * 60) else none
      | _ => none
    | _ => none

/-- Parse the optional offset suffix after the time fields. -/
def readTimeTail (base : Int) (timeSec : Int) : List Char → Option (Int × Option Int)
  | [] => some (base + timeSec, none)
  | '+' :: ro => (readOffset ro).map fun off => (base + timeSec, some off)
  | '-' :: ro => (readOffset ro).map fun off => (base + timeSec, some (-off))
  | _ => none

/-- Parse `HH[:MM[:SS[.fff[fff]]]]` plus optional offset.  Fractional
seconds must be exactly 3 or 6 digits and are truncated (the code only
ever renders `.000`). -/
def readTime (base : Int) (cs : List Char) : Option (Int × Option Int) :=
  match read2 cs with
  | some (hh, r1) =>
    if hh ≤ 23 then
      match r1 with
      | ':' :: r2 =>
        match read2 r2 with
        | some (mi, r3) =>
          if mi ≤ 59 then
            match r3 with
            | ':' :: r4 =>
              match read2 r4 with
              | some (ss, r5) =>
                if ss ≤ 59 then
                  match r5 with
                  | '.' :: r6 =>
                    let frac := r6.takeWhile Char.isDigit
                    let rest := r6.dropWhile Char.isDigit
                    if frac.length = 3 ∨ frac.length = 6 then
                      readTimeTail base (hh * 3600 + mi * 60 + ss) rest
                    else none
                  | _ => readTimeTail base (hh * 3600 + mi * 60 + ss) r5
                else none
              | none => none
            | _ => readTimeTail base (hh * 3600 + mi * 60) r3
          else none
        | none => none
      | _ => readTimeTail base (hh * 3600) r1
    else none
  | none => none

/-- `datetime.fromisoformat`: returns the wall-clock seconds described by
the string together with its explicit UTC offset, if any (`none` for a
naive value). -/
def pyFromIso (s : String) : Option (Int × Option Int) :=
  match read4 s.data with
  | some (y, '-' :: r1) =>
    match read2 r1 with
    | some (mo, '-' :: r2) =>
      match read2 r2 with
      | some (dy, r3) =>
        if 1 ≤ mo ∧ mo ≤ 12 ∧ 1 ≤ dy ∧ dy ≤ daysInMonth y mo then
          let base := daysFromCivil y mo dy * 86400
          match r3 with
          | [] => some (base, none)
          | _sep :: r4 => readTime base r4
        else none
      | none => none
    | _ => none
  | _ => none

/-- `datetime.strptime(s, "%Y-%m-%d")` as used by `handle_find_slots`:
a full-string zero-padded civil date, validated; returns the day index. -/
def parseDateYMD (s : String) : Option Int :=
  match read4 s.data with
  | some (y, '-' :: r1) =>
    match read2 r1 with
    | some (mo, '-' :: r2) =>
      match read2 r2 with
      | some (dy, []) =>
        if 1 ≤ mo ∧ mo ≤ 12 ∧ 1 ≤ dy ∧ dy ≤ daysInMonth y mo then
          some (daysFromCivil y mo dy)
        else none
      | _ => none
    | _ => none
  | _ => none

/-! ## `CalendarGPTBot._parse_datetime` -/

/-- The duplicated clock-time block of `_parse_datetime` (the body of the
`if "at" in date_str.lower()` branch, identical in the `tomorrow` and
`today` arms): 12-hour `pm`/`am` handling, else bare 24-hour hour;
minutes are set to 0, seconds are left as they are. -/
def parse_time_part (base : Int) (tp : List Char) : Except Unit Int :=
  if isSubArr "pm".data tp then
    match pyInt (pyStrip (pyReplace "pm".data [] tp)) with
    | some h => py_replace_hm base (if h = 12 then h else h + 12) 0
    | none => .error ()
  else if isSubArr "am".data tp then
    match pyInt (pyStrip (pyReplace "am".data [] tp)) with
    | some h => py_replace_hm base (if h = 12 then 0 else h) 0
    | none => .error ()
  else
    match pyInt (pyStrip tp) with
    | some h => py_replace_hm base h 0
    | none => .error ()

/-- `CalendarGPTBot._parse_datetime(date_str)`: convert a natural-language
or ISO date string to a UTC instant.  `tz` is the fixed local offset,
`now` the current UTC instant.  Every internal parsing failure is
re-raised as the single `ValueError` message produced at the bottom of
the Python function. -/
def parse_datetime (tz now : Int) (s : String) : Except String Int :=
  let ls := pyLowerData s
  let localRes : Except Unit Int :=
    if isSubArr "tomorrow".data ls then
      let base := now + tz + 86400
      if isSubArr "at".data ls then
        parse_time_part base (pyStrip (pySplit1 "at".data ls))
      else
        py_replace_hm base (hourOf (now + tz)) (minuteOf (now + tz))
    else if isSubArr "today".data ls then
      let base := now + tz
      if isSubArr "at".data ls then
        parse_time_part base (pyStrip (pySplit1 "at".data ls))
      else
        .ok base
    else
      match pyFromIso s with
      | some (wall, none) => .ok wall
      | some (wall, some off) => .ok (wall - off + tz)
      | none =>
        match pyFromIso (pyReplaceStr "Z" "+00:00" s) with
        | some (wall, none) => .ok wall
        | some (wall, some off) => .ok (wall - off + tz)
        | none => .error ()
  match localRes with
  | .ok loc => .ok (loc - tz)
  | .error _ => .error ("Could not parse date: " ++ s ++ ". Please use a clear date/time format.")

/-- `CalendarGPTBot._format_event_time(time_str)`: try to read the string
as an ISO timestamp (after replacing `Z` with `+00:00`) and render it in
the local timezone; on any failure return the string unchanged. -/
def format_event_time (tz : Int) (s : String) : String :=
  match pyFromIso (pyReplaceStr "Z" "+00:00" s) with
  | some (wall, none) => renderDisplay wall
  | some (wall, some off) => renderDisplay (wall - off + tz)
  | none => s

/-! ## `CalendarHandler.find_available_slots` (slot-generation loop)

The while loop advances `current_time` by 30 minutes until
`current_time + duration > end_time`.  We translate it with an explicit
fuel argument that serves as the loop variant; `slotFuel` is always a
strict upper bound on the number of iterations, so the fuel-exhausted
branch is unreachable (`findSlotsLoop_sufficient` below). -/

/-- One execution of the candidate-slot while loop, times in seconds.
`busy` are the (start, end) pairs extracted from the day's timed events. -/
def findSlotsLoop (dur endT : Int) (busy : List (Int × Int)) : Nat → Int → List (Int × Int)
  | 0, _ => []
  | fuel + 1, cur =>
    if cur + dur ≤ endT then
      (if busy.all (fun b => !(decide (b.1 < cur + dur) && decide (b.2 > cur))) then
        [(cur, cur + dur)]
      else []) ++ findSlotsLoop dur endT busy fuel (cur + 1800)
    else []

/-- Loop variant: enough fuel for the whole while loop. -/
def slotFuel (dur startT endT : Int) : Nat := (endT - dur - startT).toNat / 1800 + 1

/-- `CalendarHandler.find_available_slots(date, duration_minutes,
start_hour, end_hour)` restricted to one day: slot times are seconds
from midnight (UTC) of the requested date, candidates step by 30
minutes from `start_hour:00` while `start + duration ≤ end_hour:00`,
and a candidate survives iff it overlaps no busy range under the strict
test `busy_start < slot_end and busy_end > current_time`. -/
def find_available_slots (durationMinutes startHour endHour : Int)
    (busy : List (Int × Int)) : List (Int × Int) :=
  findSlotsLoop (durationMinutes * 60) (endHour * 3600) busy
    (slotFuel (durationMinutes * 60) (startHour * 3600) (endHour * 3600)) (startHour * 3600)

/-! ## The dispatch layer (`CalendarGPTBot`)

Collaborator calls are mediated by an `Oracle` of pure functions that
may fail (`Except`), modelling the calendar handler and the GPT
classifier; `MRes` pairs a result with the ordered trace of collaborator
operations performed, and `pyTry` models a Python `try/except` block. -/

/-- A calendar/classifier collaborator operation, with its arguments. -/
inductive CalOp : Type
  | getEvents (s e : Int)
  | getEventsInvalid
  | addEvent (title : String) (start dur : Int) (descr : String)
  | deleteEvent (id : String)
  | updateEvent (id : String)
  | classify (q : String)
deriving DecidableEq, Repr

/-- The attributes of a Google-calendar event dictionary that the
chatbot reads (`None` fields model missing keys). -/
structure CalendarEvent : Type where
  id : Option String
  summary : Option String
  startDateTime : Option String
  endDateTime : Option String
  description : Option String
  location : Option String
deriving DecidableEq, Repr

/-- The argument dictionary of a GPT function call; absent keys are
`none` (reading one raises `KeyError`, modelled by `reqStr`/`reqInt`). -/
structure FnParams : Type where
  title : Option String := none
  start_time : Option String := none
  end_time : Option String := none
  duration_minutes : Option Int := none
  description : Option String := none
  event_id : Option String := none
  date : Option String := none
deriving DecidableEq, Repr

/-- A GPT tool call: function name plus the result of `eval`-ing its
argument string (`error` = the `eval` raised). -/
structure ToolCall : Type where
  name : String
  args : Except String FnParams

/-- A GPT chat-completion message: optional tool calls, optional text. -/
structure GptMsg : Type where
  toolCalls : Option (List ToolCall) := none
  content : Option String := none

/-- The collaborators and ambient clock of one `process_query` call.
`tz` is the fixed local offset in seconds, `now` the current UTC
instant; an `Except.error` models the collaborator raising. -/
structure Oracle : Type where
  tz : Int
  now : Int
  getEvents : Int → Int → Except String (List CalendarEvent)
  addEvent : String → Int → Int → String → Except String (Option String)
  deleteEvent : String → Except String Bool
  updateEvent : String → Option String → Option Int → Option String → Except String Bool
  classify : String → Except String GptMsg

/-- Result of a modelled computation: value or pending exception, plus
the ordered trace of collaborator operations performed so far. -/
structure MRes (α : Type) : Type where
  val : Except String α
  ops : List CalOp

/-- Pure result, no operations. -/
def pureM {α : Type} (a : α) : MRes α := ⟨.ok a, []⟩

/-- Raise an exception. -/
def raiseM {α : Type} (e : String) : MRes α := ⟨.error e, []⟩

/-- Sequencing: run `x`; on success continue with `f`, concatenating
operation traces; a pending exception skips the continuation. -/
def bindM {α β : Type} (x : MRes α) (f : α → MRes β) : MRes β :=
  match x.val with
  | .ok a => ⟨(f a).val, x.ops ++ (f a).ops⟩
  | .error e => ⟨.error e, x.ops⟩

/-- Lift an `Except` value (e.g. a `_parse_datetime` call) into `MRes`. -/
def liftE {α : Type} (r : Except String α) : MRes α := ⟨r, []⟩

/-- Python `try: body except Exception as e: return handler(e)`. -/
def pyTry (x : MRes String) (handler : String → String) : MRes String :=
  ⟨.ok (match x.val with | .ok s => s | .error e => handler e), x.ops⟩

/-- `params[key]` for a string field: `KeyError` when absent. -/
def reqStr (v : Option String) (keyErr : String) : MRes String :=
  match v with
  | some s => pureM s
  | none => raiseM keyErr

/-- `params[key]` for an integer field: `KeyError` when absent. -/
def reqInt (v : Option Int) (keyErr : String) : MRes Int :=
  match v with
  | some n => pureM n
  | none => raiseM keyErr

/-- `self.handler.get_events(start, end)`. -/
def callGetEvents (o : Oracle) (s e : Int) : MRes (List CalendarEvent) :=
  ⟨o.getEvents s e, [.getEvents s e]⟩

/-- A `get_events` call whose range strings are malformed: the Google
API rejects them, `get_events` catches the `HttpError` and returns `[]`. -/
def callGetEventsInvalid : MRes (List CalendarEvent) :=
  ⟨.ok [], [.getEventsInvalid]⟩

/-- `self.handler.add_event(...)`: returns the new event id or `None`. -/
def callAddEvent (o : Oracle) (title : String) (start dur : Int) (descr : String) :
    MRes (Option String) :=
  ⟨o.addEvent title start dur descr, [.addEvent title start dur descr]⟩

/-- `self.handler.delete_event(id)`: `HttpError` is caught inside the
handler and surfaces as `False`, so per-item failures are booleans. -/
def callDeleteEvent (o : Oracle) (id : String) : MRes Bool :=
  ⟨o.deleteEvent id, [.deleteEvent id]⟩

/-- `self.handler.update_event(id, **updates)`. -/
def callUpdateEvent (o : Oracle) (id : String) (title : Option String)
    (start : Option Int) (descr : Option String) : MRes Bool :=
  ⟨o.updateEvent id title start descr, [.updateEvent id]⟩

/-- Display of an instant the code renders as an RFC3339 string and
immediately feeds to `_format_event_time` (which always succeeds on
those strings and shows the local wall time). -/
def instantFmt (tz t : Int) : String := renderDisplay (t + tz)

/-! ### Handlers -/

/-- `CalendarGPTBot.handle_schedule_event(params)`.  The result of
`add_event` is tested with Python truthiness (`if event_id:`), so both
`None` and an empty-string id take the failure branch. -/
def handle_schedule_event (o : Oracle) (p : FnParams) : MRes String :=
  pyTry (
    bindM (reqStr p.title "\x27title\x27") fun title =>
    bindM (reqStr p.start_time "\x27start_time\x27") fun st =>
    bindM (liftE (parse_datetime o.tz o.now st)) fun startParsed =>
    bindM (reqInt p.duration_minutes "\x27duration_minutes\x27") fun dur =>
    bindM (callAddEvent o title startParsed dur (p.description.getD "")) fun eventId =>
    match eventId with
    | some eid =>
      if eid = "" then pureM "Failed to schedule event. Please try again."
      else
        pureM ("✓ Successfully scheduled: " ++ title ++
          "\nStart: " ++ format_event_time o.tz st ++
          "\nDuration: " ++ toString dur ++ " minutes" ++
          "\nEvent ID: " ++ eid)
    | none => pureM "Failed to schedule event. Please try again.")
  (fun e => "Error scheduling event: " ++ e)

/-- The per-event line of the `handle_show_events` listing. -/
def eventLine (tz : Int) (ev : CalendarEvent) : String :=
  let start := ev.startDateTime.getD "Unknown"
  let title := ev.summary.getD "Untitled Event"
  let descr := ev.description.getD ""
  let loc := ev.location.getD ""
  "- " ++ title ++ " at " ++ format_event_time tz start ++
    (if loc ≠ "" then " (" ++ loc ++ ")" else "") ++
    (if descr ≠ "" then "\n  Description: " ++ descr else "")

/-- The response text `handle_show_events` builds from the (possibly
clamped) bounds, the annotation suffix and the fetched events.  Note the
no-events message never carries the annotation. -/
def showEventsMsg (tz : Int) (effStart endT : Int) (adj : String)
    (events : List CalendarEvent) : String :=
  if events.isEmpty then
    "No events found between " ++ instantFmt tz effStart ++ " and " ++
      instantFmt tz endT ++ "."
  else
    String.intercalate "\n"
      (("Here are your events between " ++ instantFmt tz effStart ++ " and " ++
        instantFmt tz endT ++ adj ++ ":") :: events.map (eventLine tz))

/-- `CalendarGPTBot.handle_show_events(params)`: resolve both bounds,
clamp the start to `now` when the range straddles `now` (annotating the
header), fetch and render. -/
def handle_show_events (o : Oracle) (p : FnParams) : MRes String :=
  pyTry (
    bindM (reqStr p.start_time "\x27start_time\x27") fun ps =>
    bindM (liftE (parse_datetime o.tz o.now ps)) fun startT =>
    bindM (reqStr p.end_time "\x27end_time\x27") fun pe =>
    bindM (liftE (parse_datetime o.tz o.now pe)) fun endT =>
    let se :=
      if startT < o.now ∧ endT > o.now then (o.now, " (showing only upcoming events)")
      else if startT < o.now ∧ endT ≤ o.now then (startT, "")
      else (startT, "")
    bindM (callGetEvents o se.1 endT) fun events =>
    pureM (showEventsMsg o.tz se.1 endT se.2 events))
  (fun _ => "Sorry, I had trouble retrieving your events. Please try again.")

/-- The body of the chatbot slot loop's per-event conflict check.  The
slot times come from naive `strptime` values while an event time parsed
with an explicit offset is aware; CPython raises `TypeError` on such a
comparison, propagated here as an error.  The short-circuit `and` means
the end time is only compared when `event_start < slot_end` holds. -/
def chatCheckEvents (slotEnd cur : Int) : List CalendarEvent → Except String Bool
  | [] => .ok true
  | ev :: rest =>
    match ev.startDateTime with
    | none => .error "\x27dateTime\x27"
    | some ss =>
      match pyFromIso (pyReplaceStr "Z" "+00:00" ss) with
      | none => .error ("Invalid isoformat string: " ++ ss)
      | some (ws, wso) =>
        match ev.endDateTime with
        | none => .error "\x27dateTime\x27"
        | some es =>
          match pyFromIso (pyReplaceStr "Z" "+00:00" es) with
          | none => .error ("Invalid isoformat string: " ++ es)
          | some (we, weo) =>
            if wso.isSome then
              .error "TypeError: cant compare offset-naive and offset-aware datetimes"
            else if ws < slotEnd then
              if weo.isSome then
                .error "TypeError: cant compare offset-naive and offset-aware datetimes"
              else if we > cur then .ok false
              else chatCheckEvents slotEnd cur rest
            else chatCheckEvents slotEnd cur rest

/-- The chatbot's own candidate loop in `handle_find_slots` (fuelled like
`findSlotsLoop`); an exception discards the partial slot list. -/
def chatFindLoop (dur endT : Int) (events : List CalendarEvent) :
    Nat → Int → Except String (List (Int × Int))
  | 0, _ => .ok []
  | fuel + 1, cur =>
    if cur + dur ≤ endT then
      match chatCheckEvents (cur + dur) cur events with
      | .error e => .error e
      | .ok avail =>
        match chatFindLoop dur endT events fuel (cur + 1800) with
        | .error e => .error e
        | .ok rest => .ok ((if avail then [(cur, cur + dur)] else []) ++ rest)
    else .ok []

/-- `CalendarGPTBot.handle_find_slots(params)`. -/
def handle_find_slots (o : Oracle) (p : FnParams) : MRes String :=
  pyTry (
    bindM (reqStr p.date "\x27date\x27") fun dateRaw =>
    let day? : Option Int :=
      if pyLowerData dateRaw = "tomorrow".data then some (localDay (o.now + o.tz) + 1)
      else if pyLowerData dateRaw = "today".data then some (localDay (o.now + o.tz))
      else parseDateYMD dateRaw
    match day? with
    | some d =>
      bindM (callGetEvents o (d * 86400) (d * 86400 + 86399)) fun events =>
      bindM (reqInt p.duration_minutes "\x27duration_minutes\x27") fun durMin =>
      let dur := durMin * 60
      let startT := d * 86400 + 9 * 3600
      let endT := d * 86400 + 17 * 3600
      bindM (liftE (chatFindLoop dur endT events (slotFuel dur startT endT) startT)) fun slots =>
      if slots.isEmpty then
        pureM ("No available " ++ toString durMin ++ "-minute slots found for " ++
          renderDate d ++ ".")
      else
        pureM (String.intercalate "\n"
          ((("Available " ++ toString durMin ++ "-minute slots for " ++ renderDate d ++ ":") ::
            (slots.take 5).map fun sl =>
              "- " ++ instantFmt o.tz sl.1 ++ " to " ++ instantFmt o.tz sl.2) ++
           (if 5 < slots.length then
             ["... and " ++ toString (slots.length - 5) ++ " more slots available"]
            else [])))
    | none =>
      bindM callGetEventsInvalid fun _ =>
      raiseM "time data does not match format"
  ) (fun _ => "Sorry, I had trouble finding available slots. Please try again.")

/-- `CalendarGPTBot.handle_update_event(params)`. -/
def handle_update_event (o : Oracle) (p : FnParams) : MRes String :=
  pyTry (
    bindM (match p.start_time with
           | some st => bindM (liftE (parse_datetime o.tz o.now st)) fun t => pureM (some t)
           | none => pureM none) fun newStart =>
    bindM (reqStr p.event_id "\x27event_id\x27") fun eid =>
    bindM (callUpdateEvent o eid p.title newStart p.description) fun success =>
    if success then pureM "✓ Event updated successfully"
    else pureM "Failed to update event. Please check the event ID and try again.")
  (fun e => "Error updating event: " ++ e)

/-- `CalendarGPTBot.handle_delete_event(params)`. -/
def handle_delete_event (o : Oracle) (p : FnParams) : MRes String :=
  pyTry (
    bindM (reqStr p.event_id "\x27event_id\x27") fun eid =>
    bindM (callDeleteEvent o eid) fun success =>
    if success then pureM "✓ Event deleted successfully"
    else pureM "Failed to delete event. Please check the event ID and try again.")
  (fun e => "Error deleting event: " ++ e)

/-- The deletion loop of `handle_bulk_delete`: one `delete_event` call
per event that has a truthy id, accumulating the success count; a
`False` return (the handler's failure mode) does not stop the loop. -/
def bulkDeleteLoop (o : Oracle) : List CalendarEvent → MRes Int
  | [] => pureM 0
  | ev :: rest =>
    bindM (match ev.id with
           | some id => if id = "" then pureM 0 else
             bindM (callDeleteEvent o id) fun ok => pureM (if ok then (1 : Int) else 0)
           | none => pureM 0) fun d =>
    bindM (bulkDeleteLoop o rest) fun r => pureM (d + r)

/-- `CalendarGPTBot.handle_bulk_delete(start_time, end_time)`.  The
Python function receives RFC3339 strings and re-parses them with
`_parse_datetime`; here the bounds are the instants those strings
denote (the re-parse is the identity on them). -/
def handle_bulk_delete (o : Oracle) (startT endT : Int) : MRes String :=
  pyTry (
    bindM (callGetEvents o startT endT) fun events =>
    if events.isEmpty then
      pureM "No events found in the specified time period."
    else
      bindM (bulkDeleteLoop o events) fun deletedCount =>
      if 0 < deletedCount then
        pureM ("✓ Successfully deleted " ++ toString deletedCount ++ " event" ++
          (if 1 < deletedCount then "s" else ""))
      else
        pureM "Failed to delete events. Please try again.")
  (fun e => "Error deleting events: " ++ e)

/-- `CalendarGPTBot._get_gpt_response(query)`: one classifier round trip;
any exception is caught inside and returned as `None`. -/
def getGptResponse (o : Oracle) (q : String) : MRes (Option GptMsg) :=
  ⟨.ok (match o.classify q with | .ok m => some m | .error _ => none), [.classify q]⟩

/-- The static help text returned on the reserved inputs. -/
def helpText : String :=
  "I can help you manage your calendar! Here are some examples of what you can say:\n\n" ++
  "1. Schedule events:\n" ++
  "   - \"Schedule a team meeting tomorrow at 2 PM for 1 hour\"\n" ++
  "   - \"Create a dentist appointment on 2024-01-25 at 10:00 for 30 minutes\"\n\n" ++
  "2. Show events:\n" ++
  "   - \"What\x27s on my calendar today?\"\n" ++
  "   - \"Show me my meetings for this week\"\n" ++
  "   - \"What events do I have tomorrow?\"\n\n" ++
  "3. Find available slots:\n" ++
  "   - \"When am I free tomorrow?\"\n" ++
  "   - \"Find me a 30-minute slot for tomorrow\"\n" ++
  "   - \"What time slots are available next Monday?\"\n\n" ++
  "4. Update events:\n" ++
  "   - \"Update event abc123 title to \x27Updated Meeting\x27\"\n" ++
  "   - \"Change the time of event xyz789 to tomorrow at 3 PM\"\n\n" ++
  "5. Delete events:\n" ++
  "   - \"Delete event abc123\"\n" ++
  "   - \"Cancel the meeting with ID xyz789\"\n" ++
  "   - \"Remove all events tomorrow\"\n" ++
  "   - \"Clear all events for today\"\n\n" ++
  "You can also ask me questions about your calendar or request specific information!"

/-- Everything in `process_query` after the bulk-delete intercept: the
reserved help inputs, then the classifier round trip and dispatch, the
whole region guarded by the outer `try/except`. -/
def process_query_rest (o : Oracle) (q : String) : MRes String :=
  if pyLowerData q = "help".data ∨ pyLowerData q = "?".data then pureM helpText
  else
    pyTry (
      bindM (getGptResponse o q) fun resp =>
      match resp with
      | none =>
        pureM ("I\x27m having trouble understanding your request. " ++
          "Please try again or type \x27help\x27 for examples.")
      | some msg =>
        match msg.toolCalls with
        | some (tc :: _) =>
          pyTry (
            bindM (liftE tc.args) fun args =>
            if tc.name = "schedule_event" then handle_schedule_event o args
            else if tc.name = "show_events" then handle_show_events o args
            else if tc.name = "find_slots" then handle_find_slots o args
            else if tc.name = "update_event" then handle_update_event o args
            else if tc.name = "delete_event" then handle_delete_event o args
            else
              pureM ("I don\x27t know how to handle the operation: " ++ tc.name ++
                ". Please try rephrasing your request."))
          (fun _ => "I understood your request but had trouble processing it. " ++
            "Please try again or rephrase your request.")
        | _ =>
          match msg.content with
          | some c =>
            if c ≠ "" then pureM c
            else pureM "I\x27m not sure how to help with that. Type \x27help\x27 to see what I can do."
          | none =>
            pureM "I\x27m not sure how to help with that. Type \x27help\x27 to see what I can do.")
    (fun _ => "Something went wrong. Please try again or type \x27help\x27 for examples.")

/-- The fixed phrase set of the bulk-delete intercept. -/
def bulkPhrases : List (List Char) :=
  ["remove all events".data, "delete all events".data,
   "clear all events".data, "cancel all events".data]

/-- `CalendarGPTBot.process_query(query)`: deterministic bulk-delete
intercept first (full local calendar day, `00:00:00Z`–`23:59:59Z`),
then the help shortcut and classifier dispatch. -/
def process_query (o : Oracle) (q : String) : MRes String :=
  let ql := pyLowerData q
  if bulkPhrases.any (fun p => isSubArr p ql) then
    if isSubArr "tomorrow".data ql then
      let d := localDay (o.now + o.tz) + 1
      handle_bulk_delete o (d * 86400) (d * 86400 + 86399)
    else if isSubArr "today".data ql then
      let d := localDay (o.now + o.tz)
      handle_bulk_delete o (d * 86400) (d * 86400 + 86399)
    else process_query_rest o q
  else process_query_rest o q

/-! ## Claim-side definitions and concrete fixtures -/

/-- The spec's expected value for a `tomorrow at <hh o'clock>` query:
the local reference date plus one day at `hh:00` local, with the
reference's seconds carried over unchanged, converted to UTC. -/
def expectedTomorrow (tz now hh : Int) : Int :=
  mkLocal (localDay (now + tz) + 1) hh 0 (secOf (now + tz)) - tz

/-- `"tomorrow at <h> PM"`. -/
def pmQuery (h : Nat) : String := "tomorrow at " ++ ⟨Nat.toDigits 10 h⟩ ++ " PM"

/-- `"tomorrow at <h> AM"`. -/
def amQuery (h : Nat) : String := "tomorrow at " ++ ⟨Nat.toDigits 10 h⟩ ++ " AM"

/-- `"tomorrow at <h>"` (bare 24-hour hour). -/
def hourQuery (h : Nat) : String := "tomorrow at " ++ ⟨Nat.toDigits 10 h⟩

/-- Whether the bulk-delete loop's attempt on one event succeeds: the
event has a truthy id and the collaborator returns `True` for it. -/
def delSucceeds (o : Oracle) (ev : CalendarEvent) : Bool :=
  match ev.id with
  | some id => if id = "" then false else
      match o.deleteEvent id with | .ok true => true | _ => false
  | none => false

/-- The `delete_event` operations the bulk loop issues, in event order
(one per event with a truthy id). -/
def deleteOpsOf (evs : List CalendarEvent) : List CalOp :=
  evs.filterMap fun ev =>
    match ev.id with
    | some id => if id = "" then none else some (CalOp.deleteEvent id)
    | none => none

/-- Fixture event with id `"e1"`. -/
def evE1 : CalendarEvent := ⟨some "e1", none, none, none, none, none⟩

/-- Fixture event with id `"e2"`. -/
def evE2 : CalendarEvent := ⟨some "e2", none, none, none, none, none⟩

/-- Fixture oracle: UTC local zone, `now` = 50000 s, empty calendar. -/
def oC4 : Oracle :=
  ⟨0, 50000, fun _ _ => .ok [], fun _ _ _ _ => .ok (some "abc123"),
   fun _ => .ok false, fun _ _ _ _ => .ok true, fun _ => .error "offline"⟩

/-- Fixture ShowEvents params straddling `oC4.now`. -/
def pShowC4 : FnParams :=
  ⟨none, some "today at 1 am", some "tomorrow at 1 am", none, none, none, none⟩

/-- Fixture oracle: UTC local zone, `now` = 0, creation succeeds. -/
def oC8 : Oracle :=
  ⟨0, 0, fun _ _ => .ok [], fun _ _ _ _ => .ok (some "abc123"),
   fun _ => .ok true, fun _ _ _ _ => .ok true, fun _ => .error "offline"⟩

/-- Fixture ScheduleEvent params with a natural-language start time. -/
def pSched : FnParams :=
  ⟨some "Standup", some "tomorrow at 2 PM", none, some 60, none, none, none⟩

/-- Fixture oracle whose calendar holds one event and whose deletions
all fail (the handler's `False` return). -/
def oC7x : Oracle :=
  ⟨0, 0, fun _ _ => .ok [evE1], fun _ _ _ _ => .ok none,
   fun _ => .ok false, fun _ _ _ _ => .ok true, fun _ => .error "offline"⟩

/-- Fixture oracle whose calendar holds two events and whose deletions
all succeed. -/
def oC7w : Oracle :=
  ⟨0, 0, fun _ _ => .ok [evE1, evE2], fun _ _ _ _ => .ok none,
   fun _ => .ok true, fun _ _ _ _ => .ok true, fun _ => .error "offline"⟩

/-- Fixture oracle whose `add_event` collaborator raises. -/
def oSched : Oracle :=
  ⟨0, 0, fun _ _ => .ok [], fun _ _ _ _ => .error "boom",
   fun _ => .ok true, fun _ _ _ _ => .ok true, fun _ => .error "offline"⟩

/-! ## Helper lemmas -/

theorem bindM_pureM {α β : Type} (a : α) (f : α → MRes β) : bindM (pureM a) f = f a := rfl

theorem bindM_mk_ok {α β : Type} (a : α) (l : List CalOp) (f : α → MRes β) :
    bindM ⟨.ok a, l⟩ f = ⟨(f a).val, l ++ (f a).ops⟩ := rfl

theorem bindM_mk_err {α β : Type} (e : String) (l : List CalOp) (f : α → MRes β) :
    bindM ⟨.error e, l⟩ f = ⟨.error e, l⟩ := rfl

theorem bindM_liftE_ok {α β : Type} (a : α) (f : α → MRes β) :
    bindM (liftE (.ok a)) f = f a := rfl

theorem pyTry_ops (x : MRes String) (h : String → String) : (pyTry x h).ops = x.ops := rfl

theorem pyTry_val_isOk (x : MRes String) (h : String → String) :
    ∃ s, (pyTry x h).val = .ok s := ⟨_, rfl⟩

theorem isSubArr_spec (pat : List Char) : ∀ l, isSubArr pat l = true ↔ pat <:+: l := by
  intro l
  induction l with
  | nil => simp [isSubArr, List.infix_nil, List.isEmpty_iff]
  | cons c rest ih =>
    simp [isSubArr, List.isPrefixOf_iff_prefix, ih, List.infix_cons_iff]

theorem slotFuel_sufficient (dur startT endT : Int) :
    endT - dur < startT + 1800 * (slotFuel dur startT endT : Int) := by
  unfold slotFuel
  omega

theorem all_avail_iff (busy : List (Int × Int)) (hi lo : Int) :
    (busy.all (fun b => !(decide (b.1 < hi) && decide (b.2 > lo))) = true) ↔
      ∀ b ∈ busy, ¬(b.1 < hi ∧ b.2 > lo) := by
  simp only [List.all_eq_true, not_and, Bool.not_eq_true', Bool.and_eq_false_iff,
    decide_eq_false_iff_not, not_lt, Prod.forall]
  constructor <;> intro h a b hab <;> have := h a b hab <;> omega

theorem mem_findSlotsLoop (dur endT : Int) (busy : List (Int × Int)) :
    ∀ (fuel : Nat) (cur s e : Int), endT - dur < cur + 1800 * (fuel : Int) →
      ((s, e) ∈ findSlotsLoop dur endT busy fuel cur ↔
        (e = s + dur ∧ cur ≤ s ∧ (1800 ∣ (s - cur)) ∧ s + dur ≤ endT ∧
          ∀ b ∈ busy, ¬(b.1 < s + dur ∧ b.2 > s))) := by
  intro fuel
  induction fuel with
  | zero =>
    intro cur s e hf
    simp only [findSlotsLoop, List.not_mem_nil, false_iff, not_and]
    intro _ h1 _ h3
    push_cast at hf
    intro _
    omega
  | succ n ih =>
    intro cur s e hf
    have hf' : endT - dur < (cur + 1800) + 1800 * (n : Int) := by push_cast at hf ⊢; omega
    simp only [findSlotsLoop]
    by_cases hg : cur + dur ≤ endT
    · rw [if_pos hg, List.mem_append]
      by_cases hall : busy.all (fun b => !(decide (b.1 < cur + dur) && decide (b.2 > cur))) = true
      · rw [if_pos hall]
        constructor
        · rintro (h | h)
          · obtain ⟨hs, he⟩ : s = cur ∧ e = cur + dur := by
              simpa [Prod.ext_iff] using h
            subst hs
            refine ⟨by omega, le_refl _, by omega, by omega, ?_⟩
            exact (all_avail_iff busy _ _).mp hall
          · obtain ⟨he, h1, h2, h3, h4⟩ := (ih (cur + 1800) s e hf').mp h
            exact ⟨he, by omega, by omega, h3, h4⟩
        · rintro ⟨he, hcs, hdvd, hend, hbusy⟩
          by_cases hsc : s = cur
          · subst hsc
            exact Or.inl (by simp [Prod.ext_iff, he])
          · exact Or.inr ((ih (cur + 1800) s e hf').mpr
              ⟨he, by omega, by omega, hend, hbusy⟩)
      · rw [if_neg hall]
        simp only [List.not_mem_nil, false_or]
        constructor
        · intro h
          obtain ⟨he, h1, h2, h3, h4⟩ := (ih (cur + 1800) s e hf').mp h
          exact ⟨he, by omega, by omega, h3, h4⟩
        · rintro ⟨he, hcs, hdvd, hend, hbusy⟩
          by_cases hsc : s = cur
          · exfalso
            apply hall
            apply (all_avail_iff busy _ _).mpr
            intro b hb
            have := hbusy b hb
            omega
          · exact (ih (cur + 1800) s e hf').mpr ⟨he, by omega, by omega, hend, hbusy⟩
    · rw [if_neg hg]
      simp only [List.not_mem_nil, false_iff, not_and]
      intro _ h1 _ h3
      intro _
      omega

theorem mem_find_available_slots (durationMinutes startHour endHour : Int)
    (busy : List (Int × Int)) (s e : Int) :
    ((s, e) ∈ find_available_slots durationMinutes startHour endHour busy ↔
      (e = s + durationMinutes * 60 ∧ startHour * 3600 ≤ s ∧
        (1800 ∣ (s - startHour * 3600)) ∧ s + durationMinutes * 60 ≤ endHour * 3600 ∧
        ∀ b ∈ busy, ¬(b.1 < s + durationMinutes * 60 ∧ b.2 > s))) := by
  unfold find_available_slots
  exact mem_findSlotsLoop _ _ busy _ _ s e (slotFuel_sufficient _ _ _)

theorem mem_bindM_ops {α β : Type} (x : MRes α) (f : α → MRes β) (op : CalOp)
    (h : op ∈ (bindM x f).ops) : op ∈ x.ops ∨ ∃ a, op ∈ (f a).ops := by
  unfold bindM at h
  cases hval : x.val with
  | error e =>
    rw [hval] at h
    exact Or.inl h
  | ok a =>
    rw [hval] at h
    rcases List.mem_append.mp h with h' | h'
    · exact Or.inl h'
    · exact Or.inr ⟨a, h'⟩

theorem bulkDeleteLoop_ops_shape (o : Oracle) :
    ∀ (evs : List CalendarEvent) (op : CalOp), op ∈ (bulkDeleteLoop o evs).ops →
      ∃ id, op = CalOp.deleteEvent id := by
  intro evs
  induction evs with
  | nil =>
    intro op h
    simp [bulkDeleteLoop, pureM] at h
  | cons ev rest ih =>
    intro op h
    simp only [bulkDeleteLoop] at h
    rcases mem_bindM_ops _ _ _ h with h' | ⟨d, h'⟩
    · rcases hid : ev.id with _ | id
      · simp [hid, pureM] at h'
      · simp only [hid] at h'
        by_cases hemp : id = ""
        · rw [if_pos hemp] at h'
          simp [pureM] at h'
        · rw [if_neg hemp] at h'
          rcases mem_bindM_ops _ _ _ h' with h'' | ⟨b, h''⟩
          · simp only [callDeleteEvent, List.mem_singleton] at h''
            exact ⟨id, h''⟩
          · simp [pureM] at h''
    · rcases mem_bindM_ops _ _ _ h' with h'' | ⟨r, h''⟩
      · exact ih op h''
      · simp [pureM] at h''

theorem bulkDeleteLoop_spec (o : Oracle) :
    ∀ evs : List CalendarEvent,
      (∀ ev ∈ evs, ∀ id, ev.id = some id → ∃ b, o.deleteEvent id = .ok b) →
      bulkDeleteLoop o evs =
        ⟨.ok ((evs.countP (delSucceeds o) : Int)), deleteOpsOf evs⟩ := by
  intro evs
  induction evs with
  | nil => intro _; rfl
  | cons ev rest ih =>
    intro hyp
    have hrest := ih fun ev' h' id hid => hyp ev' (List.mem_cons_of_mem _ h') id hid
    simp only [bulkDeleteLoop]
    rcases hid : ev.id with _ | id
    · simp only [hid]
      rw [bindM_pureM, hrest, bindM_mk_ok]
      simp only [pureM, List.append_nil, MRes.mk.injEq, Except.ok.injEq,
        List.countP_cons, delSucceeds, hid, deleteOpsOf, List.filterMap_cons]
      refine ⟨by push_cast; omega, by simp⟩
    · simp only [hid]
      by_cases hemp : id = ""
      · rw [if_pos hemp, bindM_pureM, hrest, bindM_mk_ok]
        simp only [pureM, List.append_nil, MRes.mk.injEq, Except.ok.injEq,
          List.countP_cons, delSucceeds, hid, hemp, if_pos, deleteOpsOf, List.filterMap_cons]
        refine ⟨by push_cast; omega, by simp⟩
      · obtain ⟨b, hb⟩ := hyp ev (List.mem_cons_self _ _) id hid
        rw [if_neg hemp]
        rw [show callDeleteEvent o id = ⟨.ok b, [CalOp.deleteEvent id]⟩ from by
          simp [callDeleteEvent, hb]]
        rw [bindM_mk_ok]
        simp only [pureM, List.append_nil]
        rw [bindM_mk_ok, hrest, bindM_mk_ok]
        simp only [pureM, List.append_nil, MRes.mk.injEq, Except.ok.injEq,
          List.countP_cons, delSucceeds, hid, hemp, if_neg, hb, deleteOpsOf,
          List.filterMap_cons]
        constructor
        · cases b
          · simp
          · simp
            omega
        · simp [hemp]

/-! ## Claim theorems -/

/-- Claim C1, counterexample: `find_slots("2024-01-20", 60, working_hours=[9,17],
busy=[])` does NOT return 16 slots — the loop admits the 30-minute starts
09:00..16:00, which are 15 candidates, not 16. -/
theorem find_slots_not_sixteen : (find_available_slots 60 9 17 []).length ≠ 16 := by
  decide

/-- Claim C1, amended: with duration 60, working hours [9,17] and an empty
busy set the search returns exactly 15 slots, one for every 30-minute
start from 09:00 (32400 s) through 16:00 (57600 s) inclusive, each
60-minute window ending by 17:00 (61200 s). -/
theorem find_slots_fifteen :
    find_available_slots 60 9 17 [] =
      (List.range 15).map fun k => ((32400 + 1800 * k : Int), (36000 + 1800 * k : Int)) := by
  decide

/-- Claim C6: a candidate is included in the availability result iff it
is a generated candidate (30-minute grid within working hours) that
overlaps no busy interval under the strict half-open test
`busy.start < candidate.end AND busy.end > candidate.start`; in
particular with busy `[10:00,11:00)` (36000–39600 s) the 09:30 candidate
(34200 s) is excluded and the 11:00 candidate (39600 s) is included. -/
theorem slot_overlap_characterization :
    (∀ (busy : List (Int × Int)) (s e : Int),
      ((s, e) ∈ find_available_slots 60 9 17 busy ↔
        (e = s + 3600 ∧ 32400 ≤ s ∧ (1800 ∣ (s - 32400)) ∧ s + 3600 ≤ 61200 ∧
          ∀ b ∈ busy, ¬(b.1 < s + 3600 ∧ b.2 > s)))) ∧
    (34200, 37800) ∉ find_available_slots 60 9 17 [(36000, 39600)] ∧
    (39600, 43200) ∈ find_available_slots 60 9 17 [(36000, 39600)] := by
  refine ⟨?_, by decide, by decide⟩
  intro busy s e
  have h := mem_find_available_slots 60 9 17 busy s e
  simp only [show (60 : Int) * 60 = 3600 from by norm_num,
    show (9 : Int) * 3600 = 32400 from by norm_num,
    show (17 : Int) * 3600 = 61200 from by norm_num] at h
  exact h

/-- Witness for C6: the 09:00 candidate is included alongside the busy
interval `[10:00,11:00)` because touching endpoints do not conflict. -/
theorem slot_overlap_characterization_witness :
    (32400, 36000) ∈ find_available_slots 60 9 17 [(36000, 39600)] :=
  (slot_overlap_characterization.1 [(36000, 39600)] 32400 36000).mpr (by decide)

/-- Bridge between the loop's branch value and the claim-side
`expectedTomorrow`: shifting the base day by one preserves the seconds
field and increments the day index. -/
theorem shiftTomorrow (tz now hh : Int) :
    mkLocal (localDay (now + tz + 86400)) hh 0 (secOf (now + tz + 86400)) - tz =
      expectedTomorrow tz now hh := by
  simp only [mkLocal, localDay, secOf, expectedTomorrow]
  omega

/-- Claim C2, counterexample: with local timezone UTC and reference-now
45 s past midnight, `"tomorrow at 2 PM"` resolves to 136845 s
(14:00:45Z of day 1), not to the claim's reference-date+1 at 14:00
local (136800 s): the `replace(hour=…, minute=0)` call leaves the
reference's seconds in place. -/
theorem parse_tomorrow_2pm_seconds_refuted :
    parse_datetime 0 45 "tomorrow at 2 PM" = .ok 136845 ∧
    (136845 : Int) ≠ 86400 + 14 * 3600 ∧
    (86400 + 14 * 3600 : Int) = mkLocal (localDay (45 + 0) + 1) 14 0 0 - 0 :=
  ⟨rfl, by decide, by decide⟩

/-- Claim C2, amended: for every fixed reference-now and fixed-offset
local timezone, `"tomorrow at <clock>"` resolves to the local reference
date plus one day at the mapped hour with minutes 0 and the reference's
seconds carried over, converted to UTC; pm hours H ≠ 12 map to H+12,
12 pm stays 12, 12 am maps to 0, other am hours are kept, and a bare
hour is read as 24-hour time. -/
theorem parse_tomorrow_at_clock :
    ∀ (tz now : Int),
      parse_datetime tz now "tomorrow at 2 PM" = .ok (expectedTomorrow tz now 14) ∧
      (∀ h : Nat, 1 ≤ h → h ≤ 11 →
        parse_datetime tz now (pmQuery h) = .ok (expectedTomorrow tz now ((h : Int) + 12))) ∧
      parse_datetime tz now (pmQuery 12) = .ok (expectedTomorrow tz now 12) ∧
      (∀ h : Nat, 1 ≤ h → h ≤ 11 →
        parse_datetime tz now (amQuery h) = .ok (expectedTomorrow tz now (h : Int))) ∧
      parse_datetime tz now (amQuery 12) = .ok (expectedTomorrow tz now 0) ∧
      (∀ h : Nat, h ≤ 23 →
        parse_datetime tz now (hourQuery h) = .ok (expectedTomorrow tz now (h : Int))) := by
  intro tz now
  refine ⟨congrArg Except.ok (shiftTomorrow tz now 14), ?_,
    congrArg Except.ok (shiftTomorrow tz now 12), ?_,
    congrArg Except.ok (shiftTomorrow tz now 0), ?_⟩
  · intro h h1 h2
    interval_cases h <;> exact congrArg Except.ok (shiftTomorrow tz now _)
  · intro h h1 h2
    interval_cases h <;> exact congrArg Except.ok (shiftTomorrow tz now _)
  · intro h h1
    interval_cases h <;> exact congrArg Except.ok (shiftTomorrow tz now _)

/-- Witness for C2: `"tomorrow at 2 PM"` at reference-now 0 in UTC. -/
theorem parse_tomorrow_at_clock_witness :
    parse_datetime 0 0 (pmQuery 2) = .ok 136800 :=
  ((parse_tomorrow_at_clock 0 0).2.1 2 (by decide) (by decide)).trans rfl

/-- Claim C9: resolving `"today"` (resp. `"tomorrow"`) with no clock
clause yields the reference instant (resp. the reference plus one day),
whose local projection keeps the reference's hour and minute. -/
theorem parse_today_roundtrip :
    ∀ (tz now : Int),
      parse_datetime tz now "today" = .ok now ∧
      parse_datetime tz now "tomorrow" = .ok (now + 86400) ∧
      (∀ u, parse_datetime tz now "today" = .ok u →
        hourOf (u + tz) = hourOf (now + tz) ∧ minuteOf (u + tz) = minuteOf (now + tz)) ∧
      (∀ u, parse_datetime tz now "tomorrow" = .ok u →
        hourOf (u + tz) = hourOf (now + tz) ∧ minuteOf (u + tz) = minuteOf (now + tz)) := by
  intro tz now
  have h1 : parse_datetime tz now "today" = .ok now :=
    congrArg Except.ok (by omega : now + tz - tz = now)
  have hb : 0 ≤ hourOf (now + tz) ∧ hourOf (now + tz) ≤ 23 ∧
      0 ≤ minuteOf (now + tz) ∧ minuteOf (now + tz) ≤ 59 := by
    simp only [hourOf, minuteOf]
    omega
  have h2 : parse_datetime tz now "tomorrow" = .ok (now + 86400) := by
    have c1 : isSubArr "tomorrow".data (pyLowerData "tomorrow") = true := rfl
    have c2 : isSubArr "at".data (pyLowerData "tomorrow") = false := rfl
    simp only [parse_datetime, c1, c2, if_true, Bool.false_eq_true, if_false, py_replace_hm,
      if_pos hb]
    exact congrArg Except.ok (by simp only [mkLocal, localDay, secOf, hourOf, minuteOf]; omega)
  refine ⟨h1, h2, ?_, ?_⟩
  · intro u hu
    rw [h1] at hu
    obtain rfl : now = u := by simpa using hu
    exact ⟨rfl, rfl⟩
  · intro u hu
    rw [h2] at hu
    obtain rfl : now + 86400 = u := by simpa using hu
    constructor <;> (simp only [hourOf, minuteOf]; omega)

/-- Witness for C9 at offset +1h, reference-now 90000 s. -/
theorem parse_today_roundtrip_witness :
    parse_datetime 3600 90000 "today" = .ok 90000 ∧
    parse_datetime 3600 90000 "tomorrow" = .ok 176400 :=
  ⟨(parse_today_roundtrip 3600 90000).1, (parse_today_roundtrip 3600 90000).2.1⟩

theorem ite_pureM_ops {c : Prop} [Decidable c] (a b : String) :
    (if c then pureM a else pureM b).ops = [] := by
  split <;> rfl

theorem bindM_ops_of_ops_nil {α β : Type} (x : MRes α) (f : α → MRes β)
    (hf : ∀ a, (f a).ops = []) : (bindM x f).ops = x.ops := by
  unfold bindM
  cases hval : x.val with
  | error e => rfl
  | ok a => simp [hf]

theorem handle_bulk_delete_ops (o : Oracle) (s e : Int) :
    ∃ rest, (handle_bulk_delete o s e).ops = CalOp.getEvents s e :: rest ∧
      ∀ op ∈ rest, ∃ id, op = CalOp.deleteEvent id := by
  unfold handle_bulk_delete
  rw [pyTry_ops]
  cases hge : o.getEvents s e with
  | error msg =>
    refine ⟨[], ?_, by simp⟩
    unfold bindM callGetEvents
    rw [hge]
  | ok evs =>
    rw [show callGetEvents o s e = ⟨.ok evs, [CalOp.getEvents s e]⟩ from by
      simp [callGetEvents, hge]]
    rw [bindM_mk_ok]
    by_cases hemp : evs.isEmpty
    · refine ⟨[], ?_, by simp⟩
      simp [hemp, pureM]
    · refine ⟨(bulkDeleteLoop o evs).ops, ?_, fun op h => bulkDeleteLoop_ops_shape o evs op h⟩
      simp only [hemp, Bool.false_eq_true, if_false]
      rw [bindM_ops_of_ops_nil _ _ fun cnt => ite_pureM_ops _ _]
      rfl

theorem process_query_rest_isOk (o : Oracle) (q : String) :
    ∃ s, (process_query_rest o q).val = Except.ok s := by
  unfold process_query_rest
  split
  · exact ⟨helpText, rfl⟩
  · exact pyTry_val_isOk _ _

/-- Claim C3: an input containing one of the four bulk-deletion phrases
together with `"tomorrow"` makes `process_query` run the bulk delete
over the full UTC day range (`00:00:00Z`–`23:59:59Z`) of the resolved
local date plus one, never invoking the classifier; and an input
without the substring `"all"` never triggers the intercept. -/
theorem bulk_intercept_tomorrow :
    (∀ (o : Oracle) (q : String),
      bulkPhrases.any (fun p => isSubArr p (pyLowerData q)) = true →
      isSubArr "tomorrow".data (pyLowerData q) = true →
      process_query o q =
        handle_bulk_delete o ((localDay (o.now + o.tz) + 1) * 86400)
          ((localDay (o.now + o.tz) + 1) * 86400 + 86399) ∧
      (∀ op ∈ (process_query o q).ops, ∀ str, op ≠ CalOp.classify str) ∧
      (process_query o q).ops.head? =
        some (CalOp.getEvents ((localDay (o.now + o.tz) + 1) * 86400)
          ((localDay (o.now + o.tz) + 1) * 86400 + 86399))) ∧
    (∀ (o : Oracle) (q : String), isSubArr "all".data (pyLowerData q) = false →
      process_query o q = process_query_rest o q) := by
  constructor
  · intro o q h1 h2
    have hpq : process_query o q =
        handle_bulk_delete o ((localDay (o.now + o.tz) + 1) * 86400)
          ((localDay (o.now + o.tz) + 1) * 86400 + 86399) := by
      simp only [process_query, h1, h2, if_true]
    obtain ⟨rest, hops, hrest⟩ :=
      handle_bulk_delete_ops o ((localDay (o.now + o.tz) + 1) * 86400)
        ((localDay (o.now + o.tz) + 1) * 86400 + 86399)
    refine ⟨hpq, ?_, ?_⟩
    · intro op hop str
      rw [hpq, hops] at hop
      rcases List.mem_cons.mp hop with rfl | hop'
      · simp
      · obtain ⟨id, rfl⟩ := hrest op hop'
        simp
    · rw [hpq, hops]
      rfl
  · intro o q hall
    have hphr : bulkPhrases.any (fun p => isSubArr p (pyLowerData q)) = false := by
      apply List.any_eq_false.mpr
      intro p hp hcontra
      have hinf : p <:+: pyLowerData q := (isSubArr_spec p _).mp hcontra
      have hallp : "all".data <:+: p := by
        simp only [bulkPhrases, List.mem_cons, List.not_mem_nil, or_false] at hp
        rcases hp with rfl | rfl | rfl | rfl <;> exact (isSubArr_spec _ _).mp rfl
      have := (isSubArr_spec "all".data _).mpr (hallp.trans hinf)
      rw [hall] at this
      exact Bool.noConfusion this
    simp only [process_query, hphr, Bool.false_eq_true, if_false]

/-- Witness for C3 on the spec's own example input. -/
theorem bulk_intercept_tomorrow_witness :
    process_query oC8 "please remove all events tomorrow now" =
      handle_bulk_delete oC8 86400 172799 ∧
    (process_query oC8 "please remove all events tomorrow now").ops.head? =
      some (CalOp.getEvents 86400 172799) := by
  have h := bulk_intercept_tomorrow.1 oC8 "please remove all events tomorrow now" rfl rfl
  exact ⟨h.1, h.2.2⟩

/-- Claim C10: an input containing a bulk-deletion phrase but neither
`"tomorrow"` nor `"today"` falls through the intercept without any
deletion and is handed to the classifier exactly as if the intercept
had not matched. -/
theorem bulk_intercept_passthrough :
    ∀ (o : Oracle) (q : String),
      bulkPhrases.any (fun p => isSubArr p (pyLowerData q)) = true →
      isSubArr "tomorrow".data (pyLowerData q) = false →
      isSubArr "today".data (pyLowerData q) = false →
      process_query o q = process_query_rest o q ∧
      (process_query o q).ops.head? = some (CalOp.classify q) := by
  intro o q h1 h2 h3
  have heq : process_query o q = process_query_rest o q := by
    simp only [process_query, h1, h2, h3, if_true, Bool.false_eq_true, if_false]
  refine ⟨heq, ?_⟩
  rw [heq]
  have hne : ¬(pyLowerData q = "help".data ∨ pyLowerData q = "?".data) := by
    obtain ⟨p, hp, hsub⟩ := List.any_eq_true.mp h1
    have hinf : p <:+: pyLowerData q := (isSubArr_spec p _).mp hsub
    have hlen : 16 ≤ p.length := by
      simp only [bulkPhrases, List.mem_cons, List.not_mem_nil, or_false] at hp
      rcases hp with rfl | rfl | rfl | rfl <;> decide
    have hle := hinf.length_le
    rintro (hq | hq) <;> rw [hq] at hle <;> simp at hle <;> omega
  simp only [process_query_rest, if_neg hne]
  rfl

/-- Witness for C10: `"remove all events next week"` is not intercepted. -/
theorem bulk_intercept_passthrough_witness :
    process_query oC8 "remove all events next week" =
      process_query_rest oC8 "remove all events next week" ∧
    (process_query oC8 "remove all events next week").ops.head? =
      some (CalOp.classify "remove all events next week") :=
  bulk_intercept_passthrough oC8 "remove all events next week" rfl rfl rfl

/-- Claim C5: `process_query` always returns a string (never a pending
exception), for every input and every collaborator behaviour; and a
calendar-collaborator failure during ScheduleEvent surfaces as that
intent's failure message. -/
theorem process_query_total :
    (∀ (o : Oracle) (q : String), ∃ s, (process_query o q).val = Except.ok s) ∧
    (∀ (o : Oracle) (p : FnParams) (title st : String) (dur pt : Int) (emsg : String),
      p.title = some title → p.start_time = some st →
      parse_datetime o.tz o.now st = Except.ok pt → p.duration_minutes = some dur →
      o.addEvent title pt dur (p.description.getD "") = Except.error emsg →
      (handle_schedule_event o p).val = Except.ok ("Error scheduling event: " ++ emsg)) := by
  constructor
  · intro o q
    simp only [process_query]
    split
    · split
      · exact pyTry_val_isOk _ _
      · split
        · exact pyTry_val_isOk _ _
        · exact process_query_rest_isOk o q
    · exact process_query_rest_isOk o q
  · intro o p title st dur pt emsg hT hS hP hD hE
    simp only [handle_schedule_event, hT, hS, hD, hP, reqStr, reqInt, bindM_pureM,
      bindM_liftE_ok]
    rw [show callAddEvent o title pt dur (p.description.getD "") =
        ⟨.error emsg, [CalOp.addEvent title pt dur (p.description.getD "")]⟩ from by
      simp [callAddEvent, hE]]
    rw [bindM_mk_err]
    rfl

/-- Witness for C5: a total run, and the `add_event` collaborator
raising during ScheduleEvent yielding the failure message. -/
theorem process_query_total_witness :
    (∃ s, (process_query oSched "hello").val = Except.ok s) ∧
    (handle_schedule_event oSched pSched).val = Except.ok "Error scheduling event: boom" :=
  ⟨process_query_total.1 oSched "hello",
   (process_query_total.2 oSched pSched "Standup" "tomorrow at 2 PM" 60 136800 "boom"
     rfl rfl rfl rfl rfl).trans rfl⟩

/-- Claim C4, counterexample: a ShowEvents dispatch whose resolved range
straddles `now` but whose fetch returns no events produces the
`"No events found"` reply WITHOUT the `"showing only upcoming events"`
annotation, contradicting the claim that every straddling dispatch
carries it. -/
theorem show_events_annotation_refuted :
    parse_datetime oC4.tz oC4.now "today at 1 am" = .ok 3620 ∧
    parse_datetime oC4.tz oC4.now "tomorrow at 1 am" = .ok 90020 ∧
    (3620 : Int) < oC4.now ∧ oC4.now < (90020 : Int) ∧
    (handle_show_events oC4 pShowC4).val =
      .ok "No events found between January 01, 1970 at 01:53 PM and January 02, 1970 at 01:00 AM." ∧
    isSubArr " (showing only upcoming events)".data
      "No events found between January 01, 1970 at 01:53 PM and January 02, 1970 at 01:00 AM.".data
      = false :=
  ⟨rfl, rfl, by decide, by decide, rfl, by decide⟩

/-- Claim C4, amended: when the resolved range straddles `now` the query
start is raised to `now` and the reply is built with the
`" (showing only upcoming events)"` annotation (shown only when events
were found — the no-events reply drops it); when both bounds are at or
before `now` the bounds are untouched and the annotation is empty. -/
theorem show_events_clamp :
    ∀ (o : Oracle) (p : FnParams) (ps pe : String) (s e : Int),
      p.start_time = some ps → p.end_time = some pe →
      parse_datetime o.tz o.now ps = .ok s → parse_datetime o.tz o.now pe = .ok e →
      ((s < o.now ∧ o.now < e →
        (handle_show_events o p).ops = [CalOp.getEvents o.now e] ∧
        ∀ evs, o.getEvents o.now e = .ok evs →
          (handle_show_events o p).val =
            .ok (showEventsMsg o.tz o.now e " (showing only upcoming events)" evs)) ∧
       (s ≤ o.now ∧ e ≤ o.now →
        (handle_show_events o p).ops = [CalOp.getEvents s e] ∧
        ∀ evs, o.getEvents s e = .ok evs →
          (handle_show_events o p).val = .ok (showEventsMsg o.tz s e "" evs))) := by
  intro o p ps pe s e hps hpe hS hE
  constructor
  · rintro ⟨h1, h2⟩
    have hcond : s < o.now ∧ e > o.now := ⟨h1, h2⟩
    simp only [handle_show_events, hps, hpe, hS, hE, reqStr, bindM_pureM, bindM_liftE_ok,
      if_pos hcond]
    constructor
    · rw [pyTry_ops, bindM_ops_of_ops_nil _ _ fun _ => rfl]
      rfl
    · intro evs hevs
      rw [show callGetEvents o o.now e = ⟨.ok evs, [CalOp.getEvents o.now e]⟩ from by
        simp [callGetEvents, hevs]]
      rw [bindM_mk_ok]
      rfl
  · rintro ⟨-, h2⟩
    have hc1 : ¬(s < o.now ∧ e > o.now) := fun h => absurd h.2 (not_lt.mpr h2)
    simp only [handle_show_events, hps, hpe, hS, hE, reqStr, bindM_pureM, bindM_liftE_ok,
      if_neg hc1, ite_self]
    constructor
    · rw [pyTry_ops, bindM_ops_of_ops_nil _ _ fun _ => rfl]
      rfl
    · intro evs hevs
      rw [show callGetEvents o s e = ⟨.ok evs, [CalOp.getEvents s e]⟩ from by
        simp [callGetEvents, hevs]]
      rw [bindM_mk_ok]
      rfl

/-- Witness for C4: the straddling case at the concrete fixture. -/
theorem show_events_clamp_witness :
    (handle_show_events oC4 pShowC4).ops = [CalOp.getEvents 50000 90020] ∧
    (handle_show_events oC4 pShowC4).val =
      .ok (showEventsMsg 0 50000 90020 " (showing only upcoming events)" []) := by
  have h := (show_events_clamp oC4 pShowC4 "today at 1 am" "tomorrow at 1 am" 3620 90020
    rfl rfl rfl rfl).1 ⟨by decide, by decide⟩
  exact ⟨h.1, h.2 [] rfl⟩

/-- Claim C7, counterexample: a bulk delete that finds one event and
fails on it (the collaborator's `False` return) reports the generic
`"Failed to delete events"` message, which does not state the count
(zero) of events actually removed. -/
theorem bulk_delete_count_refuted :
    (handle_bulk_delete oC7x 0 86399).val = .ok "Failed to delete events. Please try again." ∧
    isSubArr "0".data "Failed to delete events. Please try again.".data = false :=
  ⟨rfl, by decide⟩

/-- Claim C7, amended: the targeted events are deleted one at a time in
event order, a per-item `False` does not abort the remaining deletions,
and the report states the success count when at least one event was
removed; when none were removed the report is the generic failure
message, stating no count. -/
theorem bulk_delete_partial_failure :
    ∀ (o : Oracle) (s e : Int) (evs : List CalendarEvent),
      o.getEvents s e = .ok evs → evs ≠ [] →
      (∀ ev ∈ evs, ∀ id, ev.id = some id → ∃ b, o.deleteEvent id = .ok b) →
      (handle_bulk_delete o s e).ops = CalOp.getEvents s e :: deleteOpsOf evs ∧
      (handle_bulk_delete o s e).val =
        .ok (if 0 < (evs.countP (delSucceeds o) : Int) then
               "✓ Successfully deleted " ++ toString ((evs.countP (delSucceeds o) : Int)) ++
                 " event" ++ (if 1 < (evs.countP (delSucceeds o) : Int) then "s" else "")
             else "Failed to delete events. Please try again.") := by
  intro o s e evs hge hne hyp
  have hloop := bulkDeleteLoop_spec o evs hyp
  have hnemp : evs.isEmpty = false := by
    cases evs
    · exact absurd rfl hne
    · rfl
  unfold handle_bulk_delete
  rw [show callGetEvents o s e = ⟨.ok evs, [CalOp.getEvents s e]⟩ from by
    simp [callGetEvents, hge]]
  rw [bindM_mk_ok]
  simp only [hnemp, Bool.false_eq_true, if_false]
  rw [hloop, bindM_mk_ok]
  constructor
  · rw [pyTry_ops]
    simp [ite_pureM_ops]
  · by_cases hc : (0 : Int) < (evs.countP (delSucceeds o) : Int)
    · simp [pyTry, hc, pureM]
    · simp [pyTry, hc, pureM]

/-- Witness for C7: two events, both deletions succeed, count 2. -/
theorem bulk_delete_partial_failure_witness :
    (handle_bulk_delete oC7w 0 100).ops =
      [CalOp.getEvents 0 100, CalOp.deleteEvent "e1", CalOp.deleteEvent "e2"] ∧
    (handle_bulk_delete oC7w 0 100).val = .ok "✓ Successfully deleted 2 events" := by
  have h := bulk_delete_partial_failure oC7w 0 100 [evE1, evE2] rfl (by simp)
    (fun _ _ _ _ => ⟨true, rfl⟩)
  exact ⟨h.1.trans (by rfl), h.2.trans (by rfl)⟩

/-- Claim C8, counterexample: a successful ScheduleEvent confirmation
shows the raw start expression (`"tomorrow at 2 PM"`), not the resolved
start rendered as a local display time (`"January 02, 1970 at 02:00
PM"` for the resolved instant 136800 s). -/
theorem schedule_confirmation_refuted :
    parse_datetime oC8.tz oC8.now "tomorrow at 2 PM" = .ok 136800 ∧
    renderDisplay (136800 + oC8.tz) = "January 02, 1970 at 02:00 PM" ∧
    (handle_schedule_event oC8 pSched).val =
      .ok "✓ Successfully scheduled: Standup\nStart: tomorrow at 2 PM\nDuration: 60 minutes\nEvent ID: abc123" ∧
    isSubArr "January 02, 1970 at 02:00 PM".data
      "✓ Successfully scheduled: Standup\nStart: tomorrow at 2 PM\nDuration: 60 minutes\nEvent ID: abc123".data
      = false :=
  ⟨rfl, rfl, rfl, by decide⟩

/-- Claim C8, amended: a ScheduleEvent dispatch whose collaborator
returns a truthy (non-empty) identifier confirms with the title, the
duration, the new identifier, and the RAW start-time expression passed
through the display formatter (`format_event_time`), which renders a
local display time only for ISO-parseable expressions and otherwise
echoes the expression verbatim. -/
theorem schedule_confirmation_contents :
    ∀ (o : Oracle) (p : FnParams) (title st : String) (dur pt : Int) (eid : String),
      p.title = some title → p.start_time = some st →
      parse_datetime o.tz o.now st = .ok pt → p.duration_minutes = some dur →
      o.addEvent title pt dur (p.description.getD "") = .ok (some eid) → eid ≠ "" →
      (handle_schedule_event o p).val =
        .ok ("✓ Successfully scheduled: " ++ title ++ "\nStart: " ++
          format_event_time o.tz st ++ "\nDuration: " ++ toString dur ++
          " minutes" ++ "\nEvent ID: " ++ eid) := by
  intro o p title st dur pt eid hT hS hP hD hE hne
  simp only [handle_schedule_event, hT, hS, hD, hP, reqStr, reqInt, bindM_pureM,
    bindM_liftE_ok]
  rw [show callAddEvent o title pt dur (p.description.getD "") =
      ⟨.ok (some eid), [CalOp.addEvent title pt dur (p.description.getD "")]⟩ from by
    simp [callAddEvent, hE]]
  rw [bindM_mk_ok]
  simp only [if_neg hne]
  rfl

/-- Witness for C8 at the concrete fixture. -/
theorem schedule_confirmation_contents_witness :
    (handle_schedule_event oC8 pSched).val =
      .ok "✓ Successfully scheduled: Standup\nStart: tomorrow at 2 PM\nDuration: 60 minutes\nEvent ID: abc123" :=
  (schedule_confirmation_contents oC8 pSched "Standup" "tomorrow at 2 PM" 60 136800 "abc123"
    rfl rfl rfl rfl rfl (by decide)).trans (by rfl)

